import Mathlib

/-!
Verification development for the Meta dashboard sync backend
(`Dashboard/services/meta_client.py` and
`Dashboard/services/meta_sync_orchestrator.py`).

The Python code is shallowly embedded: JSON payloads become the inductive
type `JVal`, Python `Decimal` becomes `ℚ` (exact rational arithmetic, an
idealization of the 28-digit decimal context), Python `int` becomes `Int`,
`datetime.date` becomes the `PyDate` structure with explicit calendar
arithmetic, and fallible operations return `Option`/`Except`.  Network and
database effects are passed in explicitly (oracles / outcome lists).
-/

namespace MetaDash

/-! ## JSON value model -/

/-- Shallow model of a parsed JSON value (the dict/list/str/int payloads the
Python code manipulates).  Numbers are modelled as integers: every numeric
field the code consumes is integral. -/
inductive JVal where
  | jnull
  | jbool (b : Bool)
  | jnum (n : Int)
  | jstr (s : String)
  | jarr (items : List JVal)
  | jobj (fields : List (String × JVal))
deriving Inhabited

/-- Python `dict.get(k)`: the first binding of `k`, `None` (here `none`) when
absent or when the value is not a dict. -/
def jget (v : JVal) (k : String) : Option JVal :=
  match v with
  | .jobj fs => fs.lookup k
  | _ => none

/-- Python `dict.get(k)` with the missing case collapsed to `None`
(modelled by `JVal.jnull`), matching code that passes the result onward. -/
def jgetN (v : JVal) (k : String) : JVal :=
  (jget v k).getD .jnull

/-- Python truthiness of a JSON value. -/
def truthy : JVal → Bool
  | .jnull => false
  | .jbool b => b
  | .jnum n => n != 0
  | .jstr s => s ≠ ""
  | .jarr items => ¬ items.isEmpty
  | .jobj fields => ¬ fields.isEmpty

/-- Python `x.get(k) or d`: the stored value when present and truthy,
otherwise the default. -/
def jgetOr (v : JVal) (k : String) (d : JVal) : JVal :=
  match jget v k with
  | some w => if truthy w then w else d
  | none => d

def JVal.isObj : JVal → Bool
  | .jobj _ => true
  | _ => false

/-- Python `str()` restricted to scalar values; composite values are
abbreviated (the code only compares the result against short keywords or
stores it as an opaque diagnostic string, so their exact rendering is
never observable in the verified properties). -/
def pyStrScalar : JVal → String
  | .jnull => "None"
  | .jbool true => "True"
  | .jbool false => "False"
  | .jnum n => toString n
  | .jstr s => s
  | .jarr _ => "[...]"
  | .jobj _ => "\x7b...\x7d"

/-- Python `str.lower` on one character (ASCII range, which is all the code
compares against). -/
def pyLowerChar (c : Char) : Char :=
  if ('A' ≤ c ∧ c ≤ 'Z') then Char.ofNat (c.toNat + 32) else c

/-- Whitespace characters stripped by Python `str.strip()`. -/
def pyIsSpaceChar (c : Char) : Bool :=
  c = ' ' ∨ c = '\t' ∨ c = '\n' ∨ c = '\r' ∨ c = '\x0b' ∨ c = '\x0c'

/-- Python `str.lower()`. -/
def pyLower (s : String) : String := ⟨s.data.map pyLowerChar⟩

/-- Python `str.strip()`. -/
def pyStrip (s : String) : String :=
  ⟨((s.data.dropWhile pyIsSpaceChar).reverse.dropWhile pyIsSpaceChar).reverse⟩

/-- Python `s.replace(",", "")`. -/
def pyRemoveCommas (s : String) : String := ⟨s.data.filter (fun c => c ≠ ',')⟩

/-- Python `s[:n]` (slicing by characters). -/
def pySliceTo (s : String) (n : Nat) : String := ⟨s.data.take n⟩

def digitVal (c : Char) : Option Nat :=
  if ('0' ≤ c ∧ c ≤ '9') then some (c.toNat - 48) else none

def parseNatDigits (cs : List Char) : Option Nat :=
  match cs with
  | [] => none
  | _ =>
    cs.foldl (fun acc c =>
      match acc, digitVal c with
      | some a, some d => some (a * 10 + d)
      | _, _ => none) (some 0)

/-- Models Python `int(float(s))` on the integral string literals the
provider actually sends (`"7"`, `"120"`, `"-3"`, possibly padded with
whitespace); non-numeric strings parse to `none` exactly as `float(...)`
raises `ValueError`. -/
def pyParseIntString (s : String) : Option Int :=
  match (pyStrip s).data with
  | [] => none
  | c :: rest =>
      if c = '-' then (parseNatDigits rest).map (fun n => -(n : Int))
      else (parseNatDigits ((pyStrip s).data)).map (fun n => (n : Int))

/-- Translation of `MetaSyncOrchestrator._to_int`
(meta_sync_orchestrator.py lines 827-841): `None`/empty string map to 0,
booleans to 0/1, numbers to themselves, strings through
`int(float(str(value).replace(",", "")))`, anything unparsable to 0. -/
def pyToInt : JVal → Int
  | .jnull => 0
  | .jbool b => if b then 1 else 0
  | .jnum n => n
  | .jstr s =>
      if s = "" then 0
      else ((pyParseIntString (pyRemoveCommas s)).getD 0)
  | .jarr _ => 0
  | .jobj _ => 0

/-! ## Metric aggregation (meta_sync_orchestrator lines 939-995) -/

/-- One normalized daily metric dict as produced by `_normalize_metrics` /
accumulated by the aggregation helpers: exact counters plus derived
ratios.  Python `Decimal` is modelled by `ℚ`. -/
structure AggMetric where
  spend : ℚ
  impressions : Int
  reach : Int
  clicks : Int
  results : Int
  ctr : ℚ
  cpm : ℚ
  cpc : ℚ
  frequency : ℚ
deriving Repr, DecidableEq

/-- Translation of `MetaSyncOrchestrator._empty_agg` (lines 939-950). -/
def emptyAgg : AggMetric :=
  { spend := 0, impressions := 0, reach := 0, clicks := 0, results := 0
    ctr := 0, cpm := 0, cpc := 0, frequency := 0 }

/-- Translation of `MetaSyncOrchestrator._sum_agg` (lines 952-963):
counters add component-wise, ratios are reset to zero. -/
def sumAgg (left right : AggMetric) : AggMetric :=
  { spend := left.spend + right.spend
    impressions := left.impressions + right.impressions
    reach := left.reach + right.reach
    clicks := left.clicks + right.clicks
    results := left.results + right.results
    ctr := 0, cpm := 0, cpc := 0, frequency := 0 }

/-- Translation of `MetaSyncOrchestrator._finalize_agg` (lines 965-995):
ratios are recomputed from the summed counters, guarded against zero
denominators. -/
def finalizeAgg (agg : AggMetric) : AggMetric :=
  { spend := agg.spend
    impressions := agg.impressions
    reach := agg.reach
    clicks := agg.clicks
    results := agg.results
    ctr := if 0 < agg.impressions then ((agg.clicks : ℚ) / (agg.impressions : ℚ)) * 100 else 0
    cpm := if 0 < agg.impressions then (agg.spend / (agg.impressions : ℚ)) * 1000 else 0
    cpc := if 0 < agg.clicks then agg.spend / (agg.clicks : ℚ) else 0
    frequency := if 0 < agg.reach then ((agg.impressions : ℚ) / (agg.reach : ℚ)) else 0 }

/-! ## Results extraction (meta_sync_orchestrator lines 853-891) -/

/-- Translation of `MetaSyncOrchestrator._extract_metric_value`
(lines 1244-1258).  Python booleans hit the `isinstance(value, int)` branch
first, hence map to 0/1. -/
def extractMetricValue : JVal → Option Int
  | .jnum n => some n
  | .jbool b => some (if b then 1 else 0)
  | .jobj fs =>
      match fs.lookup ("value") with
      | some v => some (pyToInt v)
      | none =>
          match fs.lookup ("total_value") with
          | some v => some (pyToInt v)
          | none =>
              match fs.lookup ("count") with
              | some v => some (pyToInt v)
              | none => none
  | .jstr s => pyParseIntString s
  | .jnull => none
  | .jarr _ => none

/-- The `attribution_windows` check of `_extract_results_list_value`
(line 865-866): the field is a list and some element satisfies
`str(window).strip().lower() == "default"`. -/
def defaultTaggedWindows (item : JVal) : Bool :=
  match jget item ("attribution_windows") with
  | some (.jarr ws) => ws.any (fun w => pyLower (pyStrip (pyStrScalar w)) == ("default"))
  | _ => false

/-- Loop body of `_extract_results_list_value` (lines 858-867): the
accumulator carries the `total_values` and `default_window_values` lists;
non-dict items and unparsable values are skipped. -/
def resultsListStep (acc : List Int × List Int) (item : JVal) : List Int × List Int :=
  if item.isObj then
    match extractMetricValue (jgetN item ("value")) with
    | none => acc
    | some parsed =>
        (acc.1 ++ [parsed],
         if defaultTaggedWindows item then acc.2 ++ [parsed] else acc.2)
  else acc

/-- Translation of `MetaSyncOrchestrator._extract_results_list_value`
(lines 853-870): prefer the sum of default-tagged values when any exist,
otherwise sum every parsed value; non-list input yields 0. -/
def extractResultsListValue (values : JVal) : Int :=
  match values with
  | .jarr items =>
      let pair := items.foldl resultsListStep ([], [])
      if pair.2 ≠ [] then pair.2.sum else pair.1.sum
  | _ => 0

/-- Loop body of the list branch of `_extract_results_value`
(lines 876-884): entries with a `values` list go through
`_extract_results_list_value`, other dict entries through
`_to_int(entry.get("value"))`, non-dict entries are skipped. -/
def resultsEntryStep (total : Int) (entry : JVal) : Int :=
  if entry.isObj then
    match jget entry ("values") with
    | some (.jarr vs) => total + extractResultsListValue (.jarr vs)
    | _ => total + pyToInt (jgetN entry ("value"))
  else total

/-- Translation of `MetaSyncOrchestrator._extract_results_value`
(lines 872-891): list, dict, and scalar shapes. -/
def extractResultsValue : JVal → Int
  | .jarr entries => entries.foldl resultsEntryStep 0
  | .jobj fs =>
      match jget (.jobj fs) ("values") with
      | some (.jarr vs) => extractResultsListValue (.jarr vs)
      | _ => pyToInt (jgetN (.jobj fs) ("value"))
  | v => pyToInt v

/-- A value item of a results entry parsed the way the code parses it:
`none` for non-dict items and for unparsable values. -/
def parsedEntryValue (item : JVal) : Option Int :=
  if item.isObj then extractMetricValue (jgetN item ("value")) else none

/-- All parsed values of one entry's `values` list, in order. -/
def entryParsedValues (vs : List JVal) : List Int :=
  vs.filterMap parsedEntryValue

/-- The parsed values of one entry's `values` list that are tagged with the
`default` attribution window, in order. -/
def entryDefaultValues (vs : List JVal) : List Int :=
  vs.filterMap (fun item => if defaultTaggedWindows item then parsedEntryValue item else none)

/-- Statement of the per-entry preference rule in the words of the
specification, for the refinement claim C3: within each entry use only
default-tagged values when at least one exists, else all of the entry's
values; entries without a `values` list contribute their scalar `value`. -/
def entryTotalSpec (entry : JVal) : Int :=
  if entry.isObj then
    match jget entry ("values") with
    | some (.jarr vs) =>
        if entryDefaultValues vs ≠ [] then (entryDefaultValues vs).sum
        else (entryParsedValues vs).sum
    | _ => pyToInt (jgetN entry ("value"))
  else 0

/-- Value item `{value: 7, attribution_windows: ["default"]}`. -/
def valueItem7Default : JVal :=
  .jobj [("value", .jnum 7), ("attribution_windows", .jarr [.jstr ("default")])]

/-- Value item `{value: 2}` (no attribution window tag). -/
def valueItem2Untagged : JVal :=
  .jobj [("value", .jnum 2)]

/-- Value item `{value: 2, attribution_windows: ["default"]}`. -/
def valueItem2Default : JVal :=
  .jobj [("value", .jnum 2), ("attribution_windows", .jarr [.jstr ("default")])]

/-- Two entries: one whose values list holds a single default-tagged 7, one
whose values list holds a single untagged 2 (the C2 input). -/
def c2TwoEntries : JVal :=
  .jarr [.jobj [("values", .jarr [valueItem7Default])],
         .jobj [("values", .jarr [valueItem2Untagged])]]

/-- Two entries, both values default-tagged (the C2 variant input). -/
def c2TwoEntriesBothTagged : JVal :=
  .jarr [.jobj [("values", .jarr [valueItem7Default])],
         .jobj [("values", .jarr [valueItem2Default])]]

/-- One entry whose values list holds the default-tagged 7 and the untagged
2 together. -/
def c2OneEntryMixed : JVal :=
  .jarr [.jobj [("values", .jarr [valueItem7Default, valueItem2Untagged])]]

/-- One entry whose values list holds the 7 and the 2, both
default-tagged. -/
def c2OneEntryBothTagged : JVal :=
  .jarr [.jobj [("values", .jarr [valueItem7Default, valueItem2Default])]]

/-! ## Batch result normalization (meta_client lines 266-297) -/

/-- One normalized per-call batch result
(`{status_code, headers, body, body_raw}`).  `none` models Python `None`. -/
structure NormResult where
  status_code : Int
  headers : JVal
  body : Option JVal
  body_raw : Option JVal

/-- Python builtin `int(...)` on the values it is applied to by the client
(`item.get("code") or 0`): numbers, booleans, numeric strings. -/
def builtinInt (v : JVal) : Int :=
  match v with
  | .jnum n => n
  | .jbool b => if b then 1 else 0
  | .jstr s => (pyParseIntString s).getD 0
  | _ => 0

/-- Translation of `MetaGraphClient._normalize_batch_results` body for one
item (meta_client.py lines 268-296).  `decode` is the `json.loads` oracle:
`none` models a `json.JSONDecodeError`.  A string body is replaced by its
parse when it parses and by `None` when it does not; a non-string body
passes through; a non-dict item becomes a synthetic 500 result. -/
def normalizeBatchItem (decode : String → Option JVal) (item : JVal) : NormResult :=
  match item with
  | .jobj _ =>
      let bodyRaw := jget item ("body")
      let body : Option JVal :=
        match bodyRaw with
        | some (.jstr s) => decode s
        | other => other
      { status_code := builtinInt (jgetOr item ("code") (.jnum 0))
        headers := jgetOr item ("headers") (.jarr [])
        body := body
        body_raw := bodyRaw }
  | _ =>
      { status_code := 500
        headers := .jarr []
        body := none
        body_raw := some (.jstr (pyStrScalar item)) }

/-- Translation of `MetaGraphClient._normalize_batch_results`
(lines 266-297). -/
def normalizeBatchResults (decode : String → Option JVal) (payload : List JVal) :
    List NormResult :=
  payload.map (normalizeBatchItem decode)

/-- Concrete executable stand-in for `json.loads` at witness points: parses
exactly the integer literals, fails on everything else. -/
def jsonDecodeLite (s : String) : Option JVal :=
  (pyParseIntString s).map JVal.jnum

/-- The raw batch item `{code: 200, body: "oops"}` whose body is a string
that does not parse as JSON. -/
def c5UnparsableItem : JVal :=
  .jobj [("code", .jnum 200), ("body", .jstr ("oops"))]

/-! ## RunLog write paths (meta_client lines 305-315, orchestrator lines 670-678) -/

/-- Translation of `MetaGraphClient._log`: the `SyncLog.objects.create`
database insert is modelled by its outcome `write`; the `try/except
Exception` swallows any failure (the fallback is ordinary diagnostic
logging). -/
def clientLog (syncRunId : Option Int) (write : Except String Unit) : Except String Unit :=
  match syncRunId with
  | none => Except.ok ()
  | some _ =>
      match write with
      | Except.ok _ => Except.ok ()
      | Except.error _ => Except.ok ()

/-- Translation of `MetaSyncOrchestrator._log`: returns early with no
database write when no run is attached; otherwise the
`SyncLog.objects.create` outcome propagates unguarded (there is no
`try/except` around it). -/
def orchestratorLog (hasSyncRun : Bool) (write : Except String Unit) : Except String Unit :=
  if hasSyncRun then write else Except.ok ()

/-! ## Retry loop (meta_client lines 49-111, 242-258) -/

/-- What one attempt of the `request_with_retry` loop observes: either the
transport raised (`requests.RequestException`) or an HTTP response arrived
with a status code and a raw body text. -/
inductive AttemptOutcome where
  | transportError (msg : String)
  | httpResponse (status : Int) (text : String)

/-- Translation of `MetaGraphClient._safe_json` (lines 260-264): the parsed
JSON body, or `{raw: <text>}` when the body does not parse. -/
def safeJson (decode : String → Option JVal) (text : String) : JVal :=
  match decode text with
  | some j => j
  | none => .jobj [("raw", .jstr text)]

/-- Translation of `MetaGraphClient._is_retriable` (lines 242-243). -/
def isRetriable (status : Int) : Bool :=
  status == 408 || status == 429 || status == 500 ||
  status == 502 || status == 503 || status == 504

/-- Translation of `MetaGraphClient._backoff_seconds` (lines 245-247):
`2 ** attempt` seconds. -/
def backoffSeconds (attempt : Nat) : Nat := 2 ^ attempt

/-- Fallback branch of `_extract_error_message`: the first 400 characters
of the raw body when non-empty, else a fixed message. -/
def errorMessageFallback (rawText : String) : String :=
  if rawText ≠ "" then pySliceTo rawText 400 else ("Unknown error")

/-- Translation of `MetaGraphClient._extract_error_message`
(lines 249-258): prefer a truthy structured `error.message`, else the raw
body prefix. -/
def extractErrorMessage (payload : JVal) (rawText : String) : String :=
  match jget payload ("error") with
  | some (.jobj efs) =>
      match jget (.jobj efs) ("message") with
      | some m => if truthy m then pyStrScalar m else errorMessageFallback rawText
      | none => errorMessageFallback rawText
  | _ => errorMessageFallback rawText

/-- Terminal outcome of the retry loop: a parsed 2xx payload, the
network-error raise of the last transport failure, the provider-error
raise for a non-2xx response, or the unreachable fallthrough raise of
line 111. -/
inductive RetryResult where
  | success (payload : JVal)
  | networkError (msg : String)
  | providerError (status : Int) (msg : String)
  | flowError

/-- Translation of the attempt loop of `request_with_retry`
(lines 67-111), with the attempt counter and remaining fuel explicit
(`fuel = maxRetries - attempt + 1` on entry; the fuel-0 branch is the
unreachable line 111).  The returned list collects the `time.sleep`
backoff waits, in seconds, in order. -/
def requestLoop (maxRetries : Nat) (outcomes : Nat → AttemptOutcome)
    (decode : String → Option JVal) : Nat → Nat → List Nat × RetryResult
  | _, 0 => ([], .flowError)
  | attempt, fuel + 1 =>
      match outcomes attempt with
      | .transportError msg =>
          if maxRetries ≤ attempt then ([], .networkError msg)
          else
            let rest := requestLoop maxRetries outcomes decode (attempt + 1) fuel
            (backoffSeconds attempt :: rest.1, rest.2)
      | .httpResponse status text =>
          if 200 ≤ status ∧ status < 300 then ([], .success (safeJson decode text))
          else
            let msg := extractErrorMessage (safeJson decode text) text
            if isRetriable status ∧ attempt < maxRetries then
              let rest := requestLoop maxRetries outcomes decode (attempt + 1) fuel
              (backoffSeconds attempt :: rest.1, rest.2)
            else ([], .providerError status msg)

/-- Translation of `request_with_retry` itself: the loop entered at
attempt 1 with `max_retries` attempts available. -/
def requestWithRetry (maxRetries : Nat) (outcomes : Nat → AttemptOutcome)
    (decode : String → Option JVal) : List Nat × RetryResult :=
  requestLoop maxRetries outcomes decode 1 maxRetries

/-! ## Batched requests (meta_client lines 178-230) -/

/-- Chunking of `range(0, len(calls), size)` with `size = sizePred + 1`
(so the chunk size is always at least 1, as the code enforces). -/
def listChunks (sizePred : Nat) : List α → List (List α)
  | [] => []
  | x :: xs => (x :: xs.take sizePred) :: listChunks sizePred (xs.drop sizePred)
termination_by l => l.length
decreasing_by
  simp only [List.length_drop, List.length_cons]
  omega

/-- The per-chunk loop of `batch_request` (lines 197-227): each chunk is
POSTed through the provider oracle (which models `request_with_retry`
returning the parsed payload or raising `MetaClientError`); a non-list
payload raises; normalized results are concatenated in order.  The second
component counts the network round-trips performed. -/
def batchLoop (provider : List JVal → Except String JVal)
    (decode : String → Option JVal) :
    List (List JVal) → Except String (List NormResult × Nat)
  | [] => .ok ([], 0)
  | c :: cs =>
      match provider c with
      | .error e => .error e
      | .ok payload =>
          match payload with
          | .jarr items =>
              match batchLoop provider decode cs with
              | .error e => .error e
              | .ok (rest, n) => .ok (normalizeBatchResults decode items ++ rest, n + 1)
          | _ => .error ("Unexpected batch response format.")

/-- Translation of `MetaGraphClient.batch_request` (lines 178-230): empty
input short-circuits before any network call; otherwise the calls are
chunked by `size` and fed through the chunk loop. -/
def batchRequest (provider : List JVal → Except String JVal)
    (decode : String → Option JVal) (size : Nat) (calls : List JVal) :
    Except String (List NormResult × Nat) :=
  if calls.isEmpty then .ok ([], 0)
  else if size < 1 then .error ("batch_size must be >= 1")
  else batchLoop provider decode (listChunks (size - 1) calls)

/-- A provider that answers every chunk with one raw result per call, in
order (`respond` gives the raw per-call result). -/
def orderedProvider (respond : JVal → JVal) : List JVal → Except String JVal :=
  fun chunk => .ok (.jarr (chunk.map respond))

/-! ## Pagination (meta_client lines 113-176) -/

/-- The records of one page (lines 142-144): the `data` field when the
payload is a dict holding a list, otherwise nothing. -/
def pageItems (payload : JVal) : List JVal :=
  match jget payload ("data") with
  | some (.jarr xs) => xs
  | _ => []

/-- The explicit next-page URL of the paging envelope (lines 150-151):
`paging.get("next")` when `paging` is a dict. -/
def pageNext (payload : JVal) : Option JVal :=
  match jget payload ("paging") with
  | some (.jobj pfs) => jget (.jobj pfs) ("next")
  | _ => none

/-- The `after` cursor of the paging envelope (lines 152-155):
`(paging.get("cursors") or \x7b\x7d).get("after")` when `paging` is a
dict.  Lines 156-158 additionally recover `after` from the next-page URL
query string, but only when the next-page URL is itself present, in which
case the `next` branch is taken regardless — that recovered value feeds a
log line only, so it is not modelled. -/
def pageAfterCursor (payload : JVal) : Option JVal :=
  match jget payload ("paging") with
  | some (.jobj pfs) => jget (jgetOr (.jobj pfs) ("cursors") (.jobj [])) ("after")
  | _ => none

/-- Well-formedness of a page payload: when the paging envelope carries a
truthy `cursors` field it is a dict.  (On a truthy non-dict `cursors` the
Python raises `AttributeError` at line 155; the embedding treats the shape
the way `dict.get` would, so the equivalence is stated under this guard.) -/
def WFPage (payload : JVal) : Prop :=
  match jget payload ("paging") with
  | some (.jobj pfs) =>
      match jget (.jobj pfs) ("cursors") with
      | some c => truthy c = false ∨ c.isObj = true
      | none => True
  | _ => True

def optTruthy : Option JVal → Bool
  | some v => truthy v
  | none => false

/-- Python `d[k] = v` on a params dict (order of keys is irrelevant to the
requests the client issues). -/
def paramSet (ps : List (String × JVal)) (k : String) (v : JVal) :
    List (String × JVal) :=
  ps.filter (fun p => p.1 ≠ k) ++ [(k, v)]

/-- How a pagination run ended: the loop fell through with no next page,
the page limit stopped it, a request failed (`MetaClientError` re-raised at
line 140), or the modelled response sequence ran out while the loop still
wanted another page. -/
inductive PageOutcome where
  | finished
  | stoppedByLimit
  | failed (e : String)
  | exhausted

/-- Observable behaviour of one `paginate` run: the yielded records in
order, the requests issued (current path-or-url with its params), and how
the run ended. -/
structure PaginateResult where
  records : List JVal
  requests : List (JVal × List (String × JVal))
  outcome : PageOutcome

/-- Translation of the `paginate` loop (lines 121-176), driven by the
finite sequence of per-request outcomes.  A truthy explicit next URL is
followed directly with empty params (lines 160-165); otherwise a truthy
`after` cursor re-issues the original path and params with `after` merged
in (lines 167-173); otherwise the loop returns (lines 175-176). -/
def paginateGo (origPath : String) (origParams : List (String × JVal))
    (pageLimit : Option Nat) :
    JVal → List (String × JVal) → Nat → List (Except String JVal) → PaginateResult
  | cur, curParams, page, responses =>
    if truthy cur = false then ⟨[], [], .finished⟩
    else if (match pageLimit with | some pl => decide (pl < page) | none => false) then
      ⟨[], [], .stoppedByLimit⟩
    else
      match responses with
      | [] => ⟨[], [], .exhausted⟩
      | (.error e) :: _ => ⟨[], [(cur, curParams)], .failed e⟩
      | (.ok payload) :: rest =>
          let items := pageItems payload
          if optTruthy (pageNext payload) then
            let sub := paginateGo origPath origParams pageLimit
              ((pageNext payload).getD .jnull) [] (page + 1) rest
            ⟨items ++ sub.records, (cur, curParams) :: sub.requests, sub.outcome⟩
          else if optTruthy (pageAfterCursor payload) then
            let sub := paginateGo origPath origParams pageLimit (.jstr origPath)
              (paramSet origParams ("after") ((pageAfterCursor payload).getD .jnull))
              (page + 1) rest
            ⟨items ++ sub.records, (cur, curParams) :: sub.requests, sub.outcome⟩
          else ⟨items, [(cur, curParams)], .finished⟩

/-- Translation of `paginate` entry (lines 121-123): the loop starts on
the given path with a copy of the given params at page 1. -/
def paginate (path : String) (params : List (String × JVal))
    (pageLimit : Option Nat) (responses : List (Except String JVal)) :
    PaginateResult :=
  paginateGo path params pageLimit (.jstr path) params 1 responses

/-! ## Calendar dates (datetime.date, calendar.monthrange, timedelta) -/

/-- A Python `datetime.date` value. -/
structure PyDate where
  year : Int
  month : Int
  day : Int
deriving DecidableEq, Repr

/-- The Gregorian leap-year rule used by `calendar.monthrange`. -/
def isLeapYear (y : Int) : Bool :=
  Int.emod y 4 == 0 && (Int.emod y 100 != 0 || Int.emod y 400 == 0)

/-- `calendar.monthrange(y, m)[1]`: the number of days of month `m` of
year `y`. -/
def daysInMonth (y m : Int) : Int :=
  if m = 2 then (if isLeapYear y then 29 else 28)
  else if m = 4 ∨ m = 6 ∨ m = 9 ∨ m = 11 then 30
  else 31

/-- Python `date` comparison `a <= b` (lexicographic on year, month,
day). -/
def dle (a b : PyDate) : Bool :=
  decide (a.year < b.year ∨ (a.year = b.year ∧
    (a.month < b.month ∨ (a.month = b.month ∧ a.day ≤ b.day))))

/-- Python `date` comparison `a < b`. -/
def dlt (a b : PyDate) : Bool :=
  decide (a.year < b.year ∨ (a.year = b.year ∧
    (a.month < b.month ∨ (a.month = b.month ∧ a.day < b.day))))

/-- Python `min(a, b)` on dates. -/
def dmin (a b : PyDate) : PyDate := if dle a b then a else b

/-- Python `max(a, b)` on dates. -/
def dmax (a b : PyDate) : PyDate := if dle b a then a else b

/-- The calendar successor of a date (`d + timedelta(days=1)`). -/
def nextDay (d : PyDate) : PyDate :=
  if d.day < daysInMonth d.year d.month then ⟨d.year, d.month, d.day + 1⟩
  else if d.month < 12 then ⟨d.year, d.month + 1, 1⟩
  else ⟨d.year + 1, 1, 1⟩

/-- The calendar predecessor of a date (`d - timedelta(days=1)`). -/
def prevDay (d : PyDate) : PyDate :=
  if 1 < d.day then ⟨d.year, d.month, d.day - 1⟩
  else if 1 < d.month then ⟨d.year, d.month - 1, daysInMonth d.year (d.month - 1)⟩
  else ⟨d.year - 1, 12, 31⟩

/-- `d + timedelta(days=n)`, as `n` single-day calendar steps. -/
def addDays (d : PyDate) : Nat → PyDate
  | 0 => d
  | n + 1 => addDays (nextDay d) n

/-- `d - timedelta(days=n)`, as `n` single-day calendar steps. -/
def subDays (d : PyDate) : Nat → PyDate
  | 0 => d
  | n + 1 => subDays (prevDay d) n

/-- A date is valid when its month and day lie in calendar range — the
invariant `datetime.date` itself enforces. -/
def PyDate.Valid (d : PyDate) : Prop :=
  1 ≤ d.month ∧ d.month ≤ 12 ∧ 1 ≤ d.day ∧ d.day ≤ daysInMonth d.year d.month

/-- Translation of `MetaSyncOrchestrator._add_months` (lines 804-809).
Python `//` and `%` on a positive divisor are floor division and a
non-negative remainder, which is exactly `Int.ediv` / `Int.emod` for the
divisor 12. -/
def addMonths (d : PyDate) (months : Int) : PyDate :=
  let monthIdx := d.year * 12 + (d.month - 1) + months
  let y := Int.ediv monthIdx 12
  let m := Int.emod monthIdx 12 + 1
  ⟨y, m, min d.day (daysInMonth y m)⟩

/-- Translation of `MetaSyncOrchestrator._subtract_months`
(lines 778-783). -/
def subtractMonths (d : PyDate) (months : Int) : PyDate :=
  let monthIdx := d.year * 12 + (d.month - 1) - months
  let y := Int.ediv monthIdx 12
  let m := Int.emod monthIdx 12 + 1
  ⟨y, m, min d.day (daysInMonth y m)⟩

/-! ## Date-window chunking (meta_sync_orchestrator lines 785-809) -/

/-- The shared loop of `_iter_month_chunks` and `_iter_day_chunks`: while
`current <= until`, emit `(current, min(candidateEnd(current), until))`
and restart from the day after the emitted end.  `fuel` bounds the number
of iterations (`none` models a run that would still be looping); the
guard is checked before fuel is consumed, matching the `while` test. -/
def chunkLoopGo (candidateEnd : PyDate → PyDate) (untilD : PyDate) :
    Nat → PyDate → Option (List (PyDate × PyDate))
  | 0, current =>
      if dle current untilD = false then some [] else none
  | fuel + 1, current =>
      if dle current untilD = false then some []
      else
        let chunkEnd := dmin (candidateEnd current) untilD
        match chunkLoopGo candidateEnd untilD fuel (nextDay chunkEnd) with
        | some ws => some ((current, chunkEnd) :: ws)
        | none => none

/-- Translation of `_iter_month_chunks` (lines 785-793): candidate chunk
end `_add_months(current, chunk_months) - timedelta(days=1)`; a
`chunk_months < 1` input raises (modelled as `none`). -/
def iterMonthChunks (since untilD : PyDate) (chunkMonths : Int) (fuel : Nat) :
    Option (List (PyDate × PyDate)) :=
  if chunkMonths < 1 then none
  else chunkLoopGo (fun current => subDays (addMonths current chunkMonths) 1) untilD fuel since

/-- Translation of `_iter_day_chunks` (lines 795-802): candidate chunk end
`current + timedelta(days=max_span_days)`. -/
def iterDayChunks (since untilD : PyDate) (maxSpanDays : Nat) (fuel : Nat) :
    Option (List (PyDate × PyDate)) :=
  chunkLoopGo (fun current => addDays current maxSpanDays) untilD fuel since

/-- The partition property claimed for the chunk iterators: the windows
cover `[since, until]` exactly — first window starts at `since`, last ends
at `until`, every window is non-empty, consecutive windows are adjacent
(each start is the day after the previous end), and an empty interval
yields no windows. -/
def ChunksPartition (since untilD : PyDate) (ws : List (PyDate × PyDate)) : Prop :=
  (dle since untilD = true →
    ws.head?.map Prod.fst = some since ∧ ws.getLast?.map Prod.snd = some untilD) ∧
  (dle since untilD = false → ws = []) ∧
  (∀ w ∈ ws, dle w.1 w.2 = true) ∧
  List.Chain' (fun a b => b.1 = nextDay a.2) ws

/-! ## Instagram account insight metric groups (lines 1024-1117) -/

/-- The "regular" grouped metric request (line 1024). -/
def metricsRegular : List String := ["reach"]

/-- The "total value" grouped metric request (line 1025). -/
def metricsTotalValue : List String :=
  ["views", "content_views", "profile_views", "accounts_engaged", "follows_and_unfollows"]

/-- All account-level metrics, `follower_count` included (line 1026). -/
def allAccountInsightMetrics : List String :=
  metricsRegular ++ metricsTotalValue ++ ["follower_count"]

/-- Metrics still missing after the grouped calls (line 1082). -/
def missingMetrics (present : List String) : List String :=
  allAccountInsightMetrics.filter (fun m => ¬ present.contains m)

/-- The metrics the per-metric fallback loop actually requests:
`follower_count` is skipped by the `continue` at lines 1085-1086. -/
def fallbackRequestedMetrics (present : List String) : List String :=
  (missingMetrics present).filter (fun m => m ≠ ("follower_count"))

/-- The window of the separate `follower_count` request
(lines 997-1022 and 1112-1117): the overall window is first clamped to
the 2-year limit plus a 2-day margin; then
`until = min(until, today - 2 days)` and
`since = max(since, until - 27 days)`; the request is issued only when
the resulting window is non-empty (`none` otherwise — either because the
whole fetch was skipped or because the follower window came out
empty). -/
def followerWindow (today since untilD : PyDate) : Option (PyDate × PyDate) :=
  let minAllowedSince := addDays (subtractMonths today 24) 2
  let effectiveSince := if dlt since minAllowedSince then minAllowedSince else since
  if dlt untilD effectiveSince then none
  else
    let followerTodayGuard := subDays today 2
    let followerUntil := dmin untilD followerTodayGuard
    let followerSince := dmax effectiveSince (subDays followerUntil 27)
    if dle followerSince followerUntil then some (followerSince, followerUntil)
    else none

/-! ## Theorems -/

lemma foldl_sumAgg_spend (rows : List AggMetric) (a : AggMetric) :
    (rows.foldl sumAgg a).spend = a.spend + (rows.map AggMetric.spend).sum := by
  induction rows generalizing a with
  | nil => simp
  | cons r rs ih => simp [ih, sumAgg, add_assoc]

lemma foldl_sumAgg_impressions (rows : List AggMetric) (a : AggMetric) :
    (rows.foldl sumAgg a).impressions = a.impressions + (rows.map AggMetric.impressions).sum := by
  induction rows generalizing a with
  | nil => simp
  | cons r rs ih => simp [ih, sumAgg, add_assoc]

lemma foldl_sumAgg_reach (rows : List AggMetric) (a : AggMetric) :
    (rows.foldl sumAgg a).reach = a.reach + (rows.map AggMetric.reach).sum := by
  induction rows generalizing a with
  | nil => simp
  | cons r rs ih => simp [ih, sumAgg, add_assoc]

lemma foldl_sumAgg_clicks (rows : List AggMetric) (a : AggMetric) :
    (rows.foldl sumAgg a).clicks = a.clicks + (rows.map AggMetric.clicks).sum := by
  induction rows generalizing a with
  | nil => simp
  | cons r rs ih => simp [ih, sumAgg, add_assoc]

lemma foldl_sumAgg_results (rows : List AggMetric) (a : AggMetric) :
    (rows.foldl sumAgg a).results = a.results + (rows.map AggMetric.results).sum := by
  induction rows generalizing a with
  | nil => simp
  | cons r rs ih => simp [ih, sumAgg, add_assoc]

/-- C1: for any multiset of ad-level daily rows sharing an adset/campaign
and date, folding `_sum_agg` over the rows and applying `_finalize_agg`
yields counters equal to the component-wise sums of the row counters, and
ratios recomputed from those summed counters (`ctr = clicks/impressions *
100`, `cpm = spend/impressions * 1000`, `cpc = spend/clicks`,
`frequency = impressions/reach`, each zero when its denominator is zero) —
never a sum or average of the per-row ratios. -/
theorem C1_aggregation_recomputes_ratios (rows : List AggMetric) :
    (finalizeAgg (rows.foldl sumAgg emptyAgg)).spend = (rows.map AggMetric.spend).sum ∧
    (finalizeAgg (rows.foldl sumAgg emptyAgg)).impressions = (rows.map AggMetric.impressions).sum ∧
    (finalizeAgg (rows.foldl sumAgg emptyAgg)).reach = (rows.map AggMetric.reach).sum ∧
    (finalizeAgg (rows.foldl sumAgg emptyAgg)).clicks = (rows.map AggMetric.clicks).sum ∧
    (finalizeAgg (rows.foldl sumAgg emptyAgg)).results = (rows.map AggMetric.results).sum ∧
    (finalizeAgg (rows.foldl sumAgg emptyAgg)).ctr =
      (if 0 < (rows.map AggMetric.impressions).sum then
        (((rows.map AggMetric.clicks).sum : ℚ) / ((rows.map AggMetric.impressions).sum : ℚ)) * 100
      else 0) ∧
    (finalizeAgg (rows.foldl sumAgg emptyAgg)).cpm =
      (if 0 < (rows.map AggMetric.impressions).sum then
        ((rows.map AggMetric.spend).sum / ((rows.map AggMetric.impressions).sum : ℚ)) * 1000
      else 0) ∧
    (finalizeAgg (rows.foldl sumAgg emptyAgg)).cpc =
      (if 0 < (rows.map AggMetric.clicks).sum then
        (rows.map AggMetric.spend).sum / (((rows.map AggMetric.clicks).sum : ℚ))
      else 0) ∧
    (finalizeAgg (rows.foldl sumAgg emptyAgg)).frequency =
      (if 0 < (rows.map AggMetric.reach).sum then
        (((rows.map AggMetric.impressions).sum : ℚ) / ((rows.map AggMetric.reach).sum : ℚ))
      else 0) := by
  have hs : (rows.foldl sumAgg emptyAgg).spend = (rows.map AggMetric.spend).sum := by
    simpa [emptyAgg] using foldl_sumAgg_spend rows emptyAgg
  have hi : (rows.foldl sumAgg emptyAgg).impressions = (rows.map AggMetric.impressions).sum := by
    simpa [emptyAgg] using foldl_sumAgg_impressions rows emptyAgg
  have hr : (rows.foldl sumAgg emptyAgg).reach = (rows.map AggMetric.reach).sum := by
    simpa [emptyAgg] using foldl_sumAgg_reach rows emptyAgg
  have hc : (rows.foldl sumAgg emptyAgg).clicks = (rows.map AggMetric.clicks).sum := by
    simpa [emptyAgg] using foldl_sumAgg_clicks rows emptyAgg
  have hres : (rows.foldl sumAgg emptyAgg).results = (rows.map AggMetric.results).sum := by
    simpa [emptyAgg] using foldl_sumAgg_results rows emptyAgg
  refine ⟨hs, hi, hr, hc, hres, ?_, ?_, ?_, ?_⟩ <;>
    simp only [finalizeAgg, hs, hi, hr, hc]

lemma resultsListStep_eq (t d : List Int) (item : JVal) :
    resultsListStep (t, d) item =
      (match parsedEntryValue item with
      | none => (t, d)
      | some p => (t ++ [p], if defaultTaggedWindows item then d ++ [p] else d)) := by
  unfold resultsListStep parsedEntryValue
  cases hobj : item.isObj <;>
    simp only [hobj, Bool.false_eq_true, if_false, if_true]

lemma foldl_resultsListStep (vs : List JVal) (t d : List Int) :
    vs.foldl resultsListStep (t, d) =
      (t ++ entryParsedValues vs, d ++ entryDefaultValues vs) := by
  induction vs generalizing t d with
  | nil => simp [entryParsedValues, entryDefaultValues]
  | cons item rest ih =>
      rw [List.foldl_cons, resultsListStep_eq]
      cases hp : parsedEntryValue item with
      | none =>
          rw [ih]
          simp [entryParsedValues, entryDefaultValues, List.filterMap_cons, hp]
      | some p =>
          cases hd : defaultTaggedWindows item <;>
            simp only [Bool.false_eq_true, if_false, if_true] <;>
            rw [ih] <;>
            simp [entryParsedValues, entryDefaultValues, List.filterMap_cons, hp, hd]

lemma extractResultsListValue_eq (vs : List JVal) :
    extractResultsListValue (.jarr vs) =
      (if entryDefaultValues vs ≠ [] then (entryDefaultValues vs).sum
       else (entryParsedValues vs).sum) := by
  simp [extractResultsListValue, foldl_resultsListStep]

lemma resultsEntryStep_eq (total : Int) (entry : JVal) :
    resultsEntryStep total entry = total + entryTotalSpec entry := by
  unfold resultsEntryStep entryTotalSpec
  cases hobj : entry.isObj <;> simp only [hobj, Bool.false_eq_true, if_false, if_true]
  · simp
  · cases hv : jget entry ("values") with
    | none => simp
    | some v => cases v <;> simp [extractResultsListValue_eq]

lemma foldl_resultsEntryStep (entries : List JVal) (t : Int) :
    entries.foldl resultsEntryStep t = t + (entries.map entryTotalSpec).sum := by
  induction entries generalizing t with
  | nil => simp
  | cons e rest ih => simp [resultsEntryStep_eq, ih, add_assoc]

/-- C2 counterexample: on the input made of two entries — one whose values
list holds a single default-tagged 7, the other a single untagged 2 — the
extraction function returns 9, not 7 as claimed (the default preference is
applied within each entry separately, so the second entry still
contributes its 2). -/
theorem C2_counterexample_two_entries_give_nine :
    extractResultsValue c2TwoEntries ≠ 7 ∧ extractResultsValue c2TwoEntries = 9 := by
  refine ⟨?_, ?_⟩ <;> decide

/-- C2 (amended): the two-entry input (default-tagged 7 in one entry,
untagged 2 in the other) extracts to 9, as does its both-tagged variant;
the value 7 arises when the default-tagged 7 and the untagged 2 share a
single entry's values list, and tagging both values in that single entry
gives 9. -/
theorem C2_amended_results_extraction_examples :
    extractResultsValue c2TwoEntries = 9 ∧
    extractResultsValue c2TwoEntriesBothTagged = 9 ∧
    extractResultsValue c2OneEntryMixed = 7 ∧
    extractResultsValue c2OneEntryBothTagged = 9 := by
  refine ⟨?_, ?_, ?_, ?_⟩ <;> decide

/-- C3: for a results value that is a list of action-type entries, the
extracted total is the sum over the entries of a per-entry total, where an
entry with a values list uses only its default-tagged values when at least
one such parsed tagged value exists in that entry and otherwise all of its
parsed values — the preference being applied per entry, independently of
the tags in other entries. -/
theorem C3_results_list_per_entry_rule (entries : List JVal) :
    extractResultsValue (.jarr entries) = (entries.map entryTotalSpec).sum := by
  simp [extractResultsValue, foldl_resultsEntryStep]

/-- C4 counterexample: in the orchestrator's logging path a failed RunLog
(SyncLog) write propagates to the caller — `_log` has no exception guard —
refuting the claim that every log append during a run swallows write
failures. -/
theorem C4_counterexample_orchestrator_log_propagates :
    orchestratorLog true (Except.error ("db down")) ≠ Except.ok () := by
  simp [orchestratorLog]

/-- C4 (amended): only TransportClient's logging path swallows RunLog
write failures (for any attached run and any write outcome it returns
success); the orchestrator's logging path writes nothing when no run is
attached but otherwise propagates the write outcome unguarded, so a failed
write there escapes to the stage in progress. -/
theorem C4_amended_log_write_failure_policy :
    (∀ runId write, clientLog runId write = Except.ok ()) ∧
    (∀ write, orchestratorLog false write = Except.ok ()) ∧
    (∀ write, orchestratorLog true write = write) := by
  refine ⟨?_, ?_, ?_⟩
  · intro runId write
    cases runId <;> cases write <;> rfl
  · intro write
    rfl
  · intro write
    rfl

/-- C5 counterexample: for the raw chunk item `{code: 200, body: "oops"}`
whose body is a string that does not parse as JSON, the normalized `body`
is `None` — not the raw string as claimed — while `body_raw` carries the
original string. -/
theorem C5_counterexample_unparsable_body_is_none :
    (normalizeBatchItem jsonDecodeLite c5UnparsableItem).body ≠ some (.jstr ("oops")) ∧
    (normalizeBatchItem jsonDecodeLite c5UnparsableItem).body = none ∧
    (normalizeBatchItem jsonDecodeLite c5UnparsableItem).body_raw = some (.jstr ("oops")) := by
  refine ⟨?_, rfl, rfl⟩
  have h : (normalizeBatchItem jsonDecodeLite c5UnparsableItem).body = none := rfl
  rw [h]
  simp

/-- C5 (amended): for a raw batch item whose `body` field is a string, the
normalized `body` equals the JSON parse when the string parses, and is
`None` when it does not parse; the `body_raw` field always carries the
original raw body unchanged. -/
theorem C5_amended_body_normalization (decode : String → Option JVal)
    (item : JVal) (s : String) (hbody : jget item ("body") = some (.jstr s)) :
    (∀ j, decode s = some j → (normalizeBatchItem decode item).body = some j) ∧
    (decode s = none → (normalizeBatchItem decode item).body = none) ∧
    (normalizeBatchItem decode item).body_raw = some (.jstr s) := by
  cases item with
  | jobj fs =>
      refine ⟨?_, ?_, ?_⟩ <;>
        simp only [normalizeBatchItem, hbody]
      · intro j hj
        simp [hj]
      · intro hj
        simp [hj]
  | jnull => simp [jget] at hbody
  | jbool b => simp [jget] at hbody
  | jnum n => simp [jget] at hbody
  | jstr t => simp [jget] at hbody
  | jarr xs => simp [jget] at hbody

/-- C5 witness: the amended statement applied to a concrete item whose
body is the integer literal string `"41"`, with the executable decoder. -/
theorem C5_amended_body_normalization_witness :
    (normalizeBatchItem jsonDecodeLite (.jobj [("body", .jstr ("41"))])).body
      = some (.jnum 41) :=
  (C5_amended_body_normalization jsonDecodeLite (.jobj [("body", .jstr ("41"))])
    ("41") rfl).1 (.jnum 41) rfl

/-- C6: at attempt `k` of at most `N`, a transport failure waits exactly
`2 ^ k` seconds and retries when `k < N` and raises a network error on the
last attempt; a non-2xx response retries (with the same backoff) exactly
when its status is retriable and `k < N`, fails immediately as a provider
error otherwise; the retriable statuses are exactly
{408, 429, 500, 502, 503, 504}; and the provider-error message prefers a
truthy structured `error.message`, else the first 400 characters of the
raw body. -/
theorem C6_retry_backoff_and_classification (N k : Nat) (outcomes : Nat → AttemptOutcome)
    (decode : String → Option JVal) (hk : 1 ≤ k) (hkN : k ≤ N) :
    (∀ m, outcomes k = .transportError m →
      ((k < N →
          requestLoop N outcomes decode k (N - k + 1) =
            (backoffSeconds k :: (requestLoop N outcomes decode (k + 1) (N - k)).1,
             (requestLoop N outcomes decode (k + 1) (N - k)).2)) ∧
       (k = N → requestLoop N outcomes decode k (N - k + 1) = ([], .networkError m)))) ∧
    (∀ st txt, outcomes k = .httpResponse st txt → ¬ (200 ≤ st ∧ st < 300) →
      ((isRetriable st = true → k < N →
          requestLoop N outcomes decode k (N - k + 1) =
            (backoffSeconds k :: (requestLoop N outcomes decode (k + 1) (N - k)).1,
             (requestLoop N outcomes decode (k + 1) (N - k)).2)) ∧
       (isRetriable st = false →
          requestLoop N outcomes decode k (N - k + 1) =
            ([], .providerError st (extractErrorMessage (safeJson decode txt) txt))) ∧
       (isRetriable st = true → k = N →
          requestLoop N outcomes decode k (N - k + 1) =
            ([], .providerError st (extractErrorMessage (safeJson decode txt) txt))))) ∧
    backoffSeconds k = 2 ^ k ∧
    (∀ s : Int, isRetriable s = true ↔
      (s = 408 ∨ s = 429 ∨ s = 500 ∨ s = 502 ∨ s = 503 ∨ s = 504)) ∧
    (∀ payload raw e m, jget payload ("error") = some e → e.isObj = true →
      jget e ("message") = some m → truthy m = true →
      extractErrorMessage payload raw = pyStrScalar m) ∧
    (∀ payload raw, jget payload ("error") = none → raw ≠ "" →
      extractErrorMessage payload raw = pySliceTo raw 400) := by
  refine ⟨?_, ?_, rfl, ?_, ?_, ?_⟩
  · intro m hm
    constructor
    · intro hlt
      have hnot : ¬ N ≤ k := by omega
      have hfuel : N - k + 1 = (N - k) + 1 := rfl
      rw [hfuel]
      simp [requestLoop, hm, hnot]
    · intro heq
      subst heq
      simp [requestLoop, hm]
  · intro st txt hst h2xx
    refine ⟨?_, ?_, ?_⟩
    · intro hr hlt
      simp [requestLoop, hst, h2xx, hr, hlt]
    · intro hr
      simp [requestLoop, hst, h2xx, hr]
    · intro hr heq
      subst heq
      simp [requestLoop, hst, h2xx, hr]
  · intro s
    simp only [isRetriable, Bool.or_eq_true, beq_iff_eq]
    tauto
  · intro payload raw e m he hobj hm htr
    cases e with
    | jobj efs => simp [extractErrorMessage, he, hm, htr]
    | jnull => simp [JVal.isObj] at hobj
    | jbool b => simp [JVal.isObj] at hobj
    | jnum n => simp [JVal.isObj] at hobj
    | jstr t => simp [JVal.isObj] at hobj
    | jarr xs => simp [JVal.isObj] at hobj
  · intro payload raw he hraw
    simp [extractErrorMessage, he, errorMessageFallback, hraw]

/-- C6 witness: the retry step equation instantiated at attempt 1 of 2
with a concrete transport failure. -/
theorem C6_retry_backoff_witness :
    requestLoop 2 (fun _ => AttemptOutcome.transportError ("boom")) jsonDecodeLite 1 (2 - 1 + 1) =
      (backoffSeconds 1 ::
        (requestLoop 2 (fun _ => AttemptOutcome.transportError ("boom")) jsonDecodeLite 2 (2 - 1)).1,
       (requestLoop 2 (fun _ => AttemptOutcome.transportError ("boom")) jsonDecodeLite 2 (2 - 1)).2) :=
  ((C6_retry_backoff_and_classification 2 1
      (fun _ => AttemptOutcome.transportError ("boom")) jsonDecodeLite
      (by decide) (by decide)).1 ("boom") rfl).1 (by decide)

lemma listChunks_join_bounded {α : Type} (sp : Nat) :
    ∀ (n : Nat) (l : List α), l.length ≤ n → (listChunks sp l).flatten = l := by
  intro n
  induction n with
  | zero =>
      intro l hl
      have : l = [] := by
        cases l with
        | nil => rfl
        | cons x xs => simp at hl
      subst this
      simp [listChunks]
  | succ n ih =>
      intro l hl
      cases l with
      | nil => simp [listChunks]
      | cons x xs =>
          have hdrop : (xs.drop sp).length ≤ n := by
            simp only [List.length_drop]
            simp only [List.length_cons] at hl
            omega
          rw [listChunks]
          simp only [List.flatten_cons, ih (xs.drop sp) hdrop]
          simp [List.take_append_drop]

lemma listChunks_join {α : Type} (sp : Nat) (l : List α) :
    (listChunks sp l).flatten = l :=
  listChunks_join_bounded sp l.length l (Nat.le_refl _)

lemma batchLoop_ordered (respond : JVal → JVal) (decode : String → Option JVal)
    (cs : List (List JVal)) :
    batchLoop (orderedProvider respond) decode cs =
      .ok ((cs.flatten).map (fun c => normalizeBatchItem decode (respond c)), cs.length) := by
  induction cs with
  | nil => simp [batchLoop]
  | cons c rest ih =>
      simp [batchLoop, orderedProvider, ih, normalizeBatchResults, List.map_map]

lemma batchLoop_error (provider : List JVal → Except String JVal)
    (decode : String → Option JVal) :
    ∀ (cs : List (List JVal)) (j : Nat) (cj : List JVal) (e : String),
      (∀ i ci, i < j → cs.get? i = some ci →
        ∃ items, provider ci = Except.ok (.jarr items)) →
      cs.get? j = some cj →
      provider cj = .error e →
      batchLoop provider decode cs = .error e := by
  intro cs
  induction cs with
  | nil =>
      intro j cj e _ hj
      simp at hj
  | cons c rest ih =>
      intro j cj e hok hj herr
      cases j with
      | zero =>
          simp only [List.get?] at hj
          cases hj
          simp [batchLoop, herr]
      | succ j =>
          obtain ⟨items, hitems⟩ := hok 0 c (by omega) rfl
          have hrec : batchLoop provider decode rest = .error e := by
            refine ih j cj e ?_ ?_ herr
            · intro i ci hi hci
              exact hok (i + 1) ci (by omega) (by simpa using hci)
            · simpa using hj
          simp [batchLoop, hitems, hrec]

/-- C7: with a provider answering each chunk with one raw result per call
in order, `batch_request` returns exactly the in-order normalization of
every call (so output length and order match the input) using one network
round-trip per chunk; the empty calls list returns an empty result with
zero network calls for any provider; and a chunk-level failure propagates
as the error with no partial results. -/
theorem C7_batch_ordering_and_failure (decode : String → Option JVal)
    (respond : JVal → JVal) (size : Nat) (hsize : 1 ≤ size) :
    (∀ calls : List JVal,
        batchRequest (orderedProvider respond) decode size calls =
          .ok (calls.map (fun c => normalizeBatchItem decode (respond c)),
               (listChunks (size - 1) calls).length)) ∧
    (∀ calls res n,
        batchRequest (orderedProvider respond) decode size calls = .ok (res, n) →
        res.length = calls.length ∧
        ∀ i ci, calls.get? i = some ci →
          res.get? i = some (normalizeBatchItem decode (respond ci))) ∧
    (∀ provider, batchRequest provider decode size [] = .ok ([], 0)) ∧
    (∀ provider calls j cj e,
        (∀ i ci, i < j → (listChunks (size - 1) calls).get? i = some ci →
          ∃ items, provider ci = Except.ok (.jarr items)) →
        (listChunks (size - 1) calls).get? j = some cj →
        provider cj = .error e →
        batchRequest provider decode size calls = .error e) := by
  have hmain : ∀ calls : List JVal,
      batchRequest (orderedProvider respond) decode size calls =
        .ok (calls.map (fun c => normalizeBatchItem decode (respond c)),
             (listChunks (size - 1) calls).length) := by
    intro calls
    cases calls with
    | nil => simp [batchRequest, listChunks]
    | cons x xs =>
        have hne : (x :: xs).isEmpty = false := rfl
        have hlt : ¬ size < 1 := by omega
        simp only [batchRequest, hne, Bool.false_eq_true, if_false, hlt]
        rw [batchLoop_ordered, listChunks_join]
  refine ⟨hmain, ?_, ?_, ?_⟩
  · intro calls res n hres
    rw [hmain calls] at hres
    have hres' : res = calls.map (fun c => normalizeBatchItem decode (respond c)) := by
      cases hres
      rfl
    subst hres'
    refine ⟨by simp, ?_⟩
    intro i ci hci
    have hci2 : calls[i]? = some ci := by simpa using hci
    simp [List.get?_eq_getElem?, List.getElem?_map, hci2]
  · intro provider
    simp [batchRequest]
  · intro provider calls j cj e hok hj herr
    cases calls with
    | nil => simp [listChunks] at hj
    | cons x xs =>
        have hne : (x :: xs).isEmpty = false := rfl
        have hlt : ¬ size < 1 := by omega
        simp only [batchRequest, hne, Bool.false_eq_true, if_false, hlt]
        exact batchLoop_error provider decode _ j cj e hok hj herr

/-- C7 witness: the empty-calls clause applied to a concrete always-failing
provider — no network call is made and the result is empty. -/
theorem C7_batch_empty_witness :
    batchRequest (fun _ => Except.error ("down")) jsonDecodeLite 2 [] = Except.ok ([], 0) :=
  (C7_batch_ordering_and_failure jsonDecodeLite (fun v => v) 2 (by decide)).2.2.1
    (fun _ => Except.error ("down"))

/-- C8: step characterization of `paginate` (no page limit): a page with
neither a truthy next URL nor a truthy after cursor yields exactly its
data array and finishes; a truthy next URL is followed directly with no
additional params; otherwise a truthy after cursor re-issues the original
path and original params with `after` merged in; a request failure
propagates, stopping iteration with no further records; and a missing or
non-array data field contributes no records. -/
theorem C8_paginate_step_characterization (origPath : String)
    (origParams : List (String × JVal)) (cur : JVal)
    (curParams : List (String × JVal)) (page : Nat) (payload : JVal)
    (rest : List (Except String JVal)) (htr : truthy cur = true)
    (hwf : WFPage payload) :
    (optTruthy (pageNext payload) = false → optTruthy (pageAfterCursor payload) = false →
      paginateGo origPath origParams none cur curParams page (.ok payload :: rest) =
        ⟨pageItems payload, [(cur, curParams)], .finished⟩) ∧
    (∀ nu, pageNext payload = some nu → truthy nu = true →
      paginateGo origPath origParams none cur curParams page (.ok payload :: rest) =
        ⟨pageItems payload ++
           (paginateGo origPath origParams none nu [] (page + 1) rest).records,
         (cur, curParams) ::
           (paginateGo origPath origParams none nu [] (page + 1) rest).requests,
         (paginateGo origPath origParams none nu [] (page + 1) rest).outcome⟩) ∧
    (∀ a, optTruthy (pageNext payload) = false → pageAfterCursor payload = some a →
      truthy a = true →
      paginateGo origPath origParams none cur curParams page (.ok payload :: rest) =
        ⟨pageItems payload ++
           (paginateGo origPath origParams none (.jstr origPath)
             (paramSet origParams ("after") a) (page + 1) rest).records,
         (cur, curParams) ::
           (paginateGo origPath origParams none (.jstr origPath)
             (paramSet origParams ("after") a) (page + 1) rest).requests,
         (paginateGo origPath origParams none (.jstr origPath)
           (paramSet origParams ("after") a) (page + 1) rest).outcome⟩) ∧
    (∀ e, paginateGo origPath origParams none cur curParams page (.error e :: rest) =
      ⟨[], [(cur, curParams)], .failed e⟩) ∧
    ((∀ xs, jget payload ("data") ≠ some (.jarr xs)) → pageItems payload = []) := by
  refine ⟨?_, ?_, ?_, ?_, ?_⟩
  · intro hnext hafter
    rw [paginateGo]
    simp [htr, hnext, hafter]
  · intro nu hnu htru
    rw [paginateGo]
    simp [htr, hnu, optTruthy, htru]
  · intro a hnext ha htru
    have htruSome : optTruthy (some a) = true := by
      simp [optTruthy, htru]
    rw [paginateGo]
    simp [htr, hnext, ha, htruSome]
  · intro e
    rw [paginateGo]
    simp [htr]
  · intro hnd
    unfold pageItems
    cases hd : jget payload ("data") with
    | none => rfl
    | some v =>
        cases v with
        | jarr xs => exact absurd hd (hnd xs)
        | jnull => rfl
        | jbool b => rfl
        | jnum n => rfl
        | jstr s => rfl
        | jobj fs => rfl

/-- C8 witness: the terminal-page clause applied to a concrete single page
with two records and no paging envelope. -/
theorem C8_paginate_terminal_witness :
    paginateGo ("me/adaccounts") [] none (.jstr ("me/adaccounts")) [] 1
        [Except.ok (.jobj [("data", .jarr [.jnum 1, .jnum 2])])] =
      ⟨[.jnum 1, .jnum 2], [(.jstr ("me/adaccounts"), [])], .finished⟩ :=
  (C8_paginate_step_characterization ("me/adaccounts") [] (.jstr ("me/adaccounts"))
    [] 1 (.jobj [("data", .jarr [.jnum 1, .jnum 2])]) [] rfl (by trivial)).1
    rfl rfl

set_option maxRecDepth 8000 in
/-- C9: with today fixed at 2026-02-20 and a requested range 2024-06-01 to
today, the follower-count request window is exactly
(2026-01-22, 2026-02-18); and `follower_count` appears in no grouped
metric request — neither the regular group, nor the total-value group,
nor the per-metric fallback loop, which skips it for every possible set of
already-present metrics. -/
theorem C9_follower_window_and_exclusion :
    followerWindow ⟨2026, 2, 20⟩ ⟨2024, 6, 1⟩ ⟨2026, 2, 20⟩ =
      some (⟨2026, 1, 22⟩, ⟨2026, 2, 18⟩) ∧
    ("follower_count") ∉ metricsRegular ∧
    ("follower_count") ∉ metricsTotalValue ∧
    ∀ present : List String, ("follower_count") ∉ fallbackRequestedMetrics present := by
  refine ⟨by decide, by decide, by decide, ?_⟩
  intro present hmem
  simp only [fallbackRequestedMetrics, List.mem_filter, decide_eq_true_eq] at hmem
  exact hmem.2 rfl

lemma dle_refl (a : PyDate) : dle a a = true := by
  simp [dle]

lemma dle_of_not_dle (a b : PyDate) (h : dle a b = false) : dlt b a = true := by
  simp only [dle, decide_eq_false_iff_not] at h
  simp only [dlt, decide_eq_true_eq]
  omega

lemma dle_of_dlt (a b : PyDate) (h : dlt a b = true) : dle a b = true := by
  simp only [dlt, decide_eq_true_eq] at h
  simp only [dle, decide_eq_true_eq]
  omega

lemma dle_trans (a b c : PyDate) (h1 : dle a b = true) (h2 : dle b c = true) :
    dle a c = true := by
  simp only [dle, decide_eq_true_eq] at h1 h2 ⊢
  omega

lemma dle_antisymm (a b : PyDate) (h1 : dle a b = true) (h2 : dle b a = true) :
    a = b := by
  obtain ⟨ay, am, ad⟩ := a
  obtain ⟨by', bm, bd⟩ := b
  simp only [dle, decide_eq_true_eq] at h1 h2
  simp only [PyDate.mk.injEq]
  omega

lemma daysInMonth_ge (y m : Int) : 28 ≤ daysInMonth y m := by
  unfold daysInMonth
  split_ifs <;> omega

lemma daysInMonth_december (y : Int) : daysInMonth y 12 = 31 := by
  norm_num [daysInMonth]

lemma dlt_nextDay_self (d : PyDate) : dlt d (nextDay d) = true := by
  unfold nextDay
  split_ifs <;> simp [dlt]

lemma nextDay_valid (d : PyDate) (hd : d.Valid) : (nextDay d).Valid := by
  obtain ⟨hm1, hm2, hd1, hd2⟩ := hd
  unfold nextDay
  have h28a := daysInMonth_ge d.year (d.month + 1)
  have h28b := daysInMonth_ge (d.year + 1) 1
  split_ifs with h1 h2 <;> simp [PyDate.Valid] <;> omega

lemma prevDay_valid (d : PyDate) (hd : d.Valid) : (prevDay d).Valid := by
  obtain ⟨hm1, hm2, hd1, hd2⟩ := hd
  unfold prevDay
  have h28a := daysInMonth_ge d.year (d.month - 1)
  have h28b := daysInMonth_december (d.year - 1)
  split_ifs with h1 h2 <;> simp [PyDate.Valid] <;> omega

lemma addDays_valid (n : Nat) : ∀ d : PyDate, d.Valid → (addDays d n).Valid := by
  induction n with
  | zero => intro d hd; exact hd
  | succ n ih => intro d hd; exact ih (nextDay d) (nextDay_valid d hd)

lemma dle_addDays_self (n : Nat) : ∀ d : PyDate, d.Valid → dle d (addDays d n) = true := by
  induction n with
  | zero => intro d _; exact dle_refl d
  | succ n ih =>
      intro d hd
      exact dle_trans d (nextDay d) (addDays (nextDay d) n)
        (dle_of_dlt d (nextDay d) (dlt_nextDay_self d))
        (ih (nextDay d) (nextDay_valid d hd))

lemma subDays_one (d : PyDate) : subDays d 1 = prevDay d := rfl

lemma addMonths_valid (d : PyDate) (k : Int) (hd : d.Valid) : (addMonths d k).Valid := by
  obtain ⟨hm1, hm2, hd1, hd2⟩ := hd
  have h0 : 0 ≤ Int.emod (d.year * 12 + (d.month - 1) + k) 12 :=
    Int.emod_nonneg _ (by norm_num)
  have h1 : Int.emod (d.year * 12 + (d.month - 1) + k) 12 < 12 :=
    Int.emod_lt_of_pos _ (by norm_num)
  have h28 := daysInMonth_ge (Int.ediv (d.year * 12 + (d.month - 1) + k) 12)
    (Int.emod (d.year * 12 + (d.month - 1) + k) 12 + 1)
  simp only [addMonths, PyDate.Valid]
  omega

lemma dlt_addMonths_self (d : PyDate) (k : Int) (hd : d.Valid) (hk : 1 ≤ k) :
    dlt d (addMonths d k) = true := by
  obtain ⟨hm1, hm2, hd1, hd2⟩ := hd
  unfold addMonths
  simp only [dlt, decide_eq_true_eq]
  have heq : 12 * Int.ediv (d.year * 12 + (d.month - 1) + k) 12 +
      Int.emod (d.year * 12 + (d.month - 1) + k) 12 =
      d.year * 12 + (d.month - 1) + k :=
    Int.ediv_add_emod _ 12
  have h0 : 0 ≤ Int.emod (d.year * 12 + (d.month - 1) + k) 12 :=
    Int.emod_nonneg _ (by norm_num)
  have h1 : Int.emod (d.year * 12 + (d.month - 1) + k) 12 < 12 :=
    Int.emod_lt_of_pos _ (by norm_num)
  omega

lemma dmin_le_right (a b : PyDate) : dle (dmin a b) b = true := by
  unfold dmin
  split_ifs with h
  · exact h
  · exact dle_refl b

lemma dle_dmin (c a b : PyDate) (h1 : dle c a = true) (h2 : dle c b = true) :
    dle c (dmin a b) = true := by
  unfold dmin
  split_ifs <;> assumption

lemma dmin_valid (a b : PyDate) (ha : a.Valid) (hb : b.Valid) : (dmin a b).Valid := by
  unfold dmin
  split_ifs <;> assumption

lemma dle_of_dlt_nextDay (a b : PyDate) (ha : a.Valid) (hb : b.Valid)
    (h : dlt a (nextDay b) = true) : dle a b = true := by
  obtain ⟨ham1, ham2, had1, had2⟩ := ha
  obtain ⟨hbm1, hbm2, hbd1, hbd2⟩ := hb
  unfold nextDay at h
  simp only [dle, decide_eq_true_eq]
  split_ifs at h with h1 h2 <;> simp only [dlt, decide_eq_true_eq] at h
  · omega
  · by_cases hc : a.year = b.year ∧ a.month = b.month
    · have hdim : daysInMonth a.year a.month = daysInMonth b.year b.month := by
        rw [hc.1, hc.2]
      omega
    · omega
  · by_cases hc : a.year = b.year ∧ a.month = b.month
    · have hdim : daysInMonth a.year a.month = daysInMonth b.year b.month := by
        rw [hc.1, hc.2]
      omega
    · omega

lemma dle_prevDay_of_dlt (a b : PyDate) (ha : a.Valid) (hb : b.Valid)
    (h : dlt a b = true) : dle a (prevDay b) = true := by
  obtain ⟨ham1, ham2, had1, had2⟩ := ha
  obtain ⟨hbm1, hbm2, hbd1, hbd2⟩ := hb
  unfold prevDay
  simp only [dlt, decide_eq_true_eq] at h
  split_ifs with h1 h2 <;> simp only [dle, decide_eq_true_eq]
  · omega
  · by_cases hc : a.year = b.year ∧ a.month = b.month - 1
    · have hdim : daysInMonth a.year a.month = daysInMonth b.year (b.month - 1) := by
        rw [hc.1, hc.2]
      omega
    · omega
  · by_cases hc : a.year = b.year - 1 ∧ a.month = 12
    · have hdim : daysInMonth a.year a.month = 31 := by
        rw [hc.2]
        exact daysInMonth_december a.year
      omega
    · omega

lemma chunksPartition_empty (since untilD : PyDate) (h : dle since untilD = false) :
    ChunksPartition since untilD [] := by
  unfold ChunksPartition
  refine ⟨?_, ?_, ?_, ?_⟩
  · intro ht
    rw [ht] at h
    cases h
  · intro _
    rfl
  · intro w hw
    cases hw
  · simp

lemma chunkLoopGo_partition (candidateEnd : PyDate → PyDate) (untilD : PyDate)
    (hu : untilD.Valid)
    (hcand : ∀ d : PyDate, d.Valid → (candidateEnd d).Valid ∧ dle d (candidateEnd d) = true) :
    ∀ (fuel : Nat) (current : PyDate) (ws : List (PyDate × PyDate)),
      current.Valid →
      chunkLoopGo candidateEnd untilD fuel current = some ws →
      ChunksPartition current untilD ws := by
  intro fuel
  induction fuel with
  | zero =>
      intro current ws hcur hrun
      rw [chunkLoopGo] at hrun
      by_cases hcd : dle current untilD = false
      · rw [if_pos hcd] at hrun
        simp only [Option.some.injEq] at hrun
        subst hrun
        exact chunksPartition_empty current untilD hcd
      · rw [if_neg hcd] at hrun
        exact Option.noConfusion hrun
  | succ fuel ih =>
      intro current ws hcur hrun
      rw [chunkLoopGo] at hrun
      by_cases hcd : dle current untilD = false
      · rw [if_pos hcd] at hrun
        simp only [Option.some.injEq] at hrun
        subst hrun
        exact chunksPartition_empty current untilD hcd
      · have hcdT : dle current untilD = true := by
          cases h : dle current untilD
          · exact absurd h hcd
          · rfl
        rw [if_neg hcd] at hrun
        simp only at hrun
        cases hrec : chunkLoopGo candidateEnd untilD fuel
            (nextDay (dmin (candidateEnd current) untilD)) with
        | none =>
            rw [hrec] at hrun
            exact Option.noConfusion hrun
        | some ws' =>
            rw [hrec] at hrun
            simp only [Option.some.injEq] at hrun
            subst hrun
            obtain ⟨hcandV, hcandLe⟩ := hcand current hcur
            have hceValid : (dmin (candidateEnd current) untilD).Valid :=
              dmin_valid _ _ hcandV hu
            have hcurce : dle current (dmin (candidateEnd current) untilD) = true :=
              dle_dmin current _ _ hcandLe hcdT
            have hceU : dle (dmin (candidateEnd current) untilD) untilD = true :=
              dmin_le_right _ _
            obtain ⟨ih1, ih2, ih3, ih4⟩ :=
              ih (nextDay (dmin (candidateEnd current) untilD)) ws'
                (nextDay_valid _ hceValid) hrec
            refine ⟨?_, ?_, ?_, ?_⟩
            · intro _
              constructor
              · rfl
              · cases hws : ws' with
                | nil =>
                    subst hws
                    have hstop :
                        dle (nextDay (dmin (candidateEnd current) untilD)) untilD = false := by
                      cases h : dle (nextDay (dmin (candidateEnd current) untilD)) untilD
                      · rfl
                      · have := (ih1 h).1
                        simp at this
                    have hlt : dlt untilD (nextDay (dmin (candidateEnd current) untilD)) = true :=
                      dle_of_not_dle _ _ hstop
                    have hle : dle untilD (dmin (candidateEnd current) untilD) = true :=
                      dle_of_dlt_nextDay untilD _ hu hceValid hlt
                    have hEq := dle_antisymm _ _ hceU hle
                    simp [hEq]
                | cons w t =>
                    subst hws
                    have hne :
                        dle (nextDay (dmin (candidateEnd current) untilD)) untilD = true := by
                      cases h : dle (nextDay (dmin (candidateEnd current) untilD)) untilD
                      · have := ih2 h
                        cases this
                      · rfl
                    have hlast := (ih1 hne).2
                    rw [List.getLast?_cons_cons]
                    exact hlast
            · intro hfalse
              rw [hcdT] at hfalse
              cases hfalse
            · intro w hw
              rcases List.mem_cons.mp hw with hw1 | hw2
              · subst hw1
                exact hcurce
              · exact ih3 w hw2
            · cases hws : ws' with
              | nil => simp
              | cons w t =>
                  subst hws
                  have hne :
                      dle (nextDay (dmin (candidateEnd current) untilD)) untilD = true := by
                    cases h : dle (nextDay (dmin (candidateEnd current) untilD)) untilD
                    · have := ih2 h
                      cases this
                    · rfl
                  have hhead := (ih1 hne).1
                  simp at hhead
                  exact List.chain'_cons.mpr ⟨hhead, ih4⟩

/-- C10: for valid dates with any chunk length, the windows produced by
`_iter_month_chunks` (chunk length in months, at least 1) and by
`_iter_day_chunks` (max span in days) partition the closed interval
[since, until]: the first window starts at `since`, the last ends at
`until`, every window has start no later than end, each subsequent window
starts exactly one day after the previous window ends, and `since > until`
yields no window. -/
theorem C10_chunk_windows_partition (since untilD : PyDate) (k : Int)
    (span fuel : Nat) (hs : since.Valid) (hu : untilD.Valid) (hk : 1 ≤ k) :
    (∀ ws, iterMonthChunks since untilD k fuel = some ws →
      ChunksPartition since untilD ws) ∧
    (∀ ws, iterDayChunks since untilD span fuel = some ws →
      ChunksPartition since untilD ws) := by
  constructor
  · intro ws hrun
    have hklt : ¬ (k < 1) := by omega
    rw [iterMonthChunks, if_neg hklt] at hrun
    refine chunkLoopGo_partition _ untilD hu ?_ fuel since ws hs hrun
    intro d hd
    constructor
    · rw [subDays_one]
      exact prevDay_valid _ (addMonths_valid d k hd)
    · rw [subDays_one]
      exact dle_prevDay_of_dlt d _ hd (addMonths_valid d k hd)
        (dlt_addMonths_self d k hd hk)
  · intro ws hrun
    rw [iterDayChunks] at hrun
    refine chunkLoopGo_partition _ untilD hu ?_ fuel since ws hs hrun
    intro d hd
    exact ⟨addDays_valid span d hd, dle_addDays_self span d hd⟩

set_option maxRecDepth 8000 in
/-- C10 witness: the month-chunking clause applied to the concrete run
2026-01-01 .. 2026-09-15 with 3-month chunks, whose three windows are
(2026-01-01, 2026-03-31), (2026-04-01, 2026-06-30),
(2026-07-01, 2026-09-15). -/
theorem C10_chunk_partition_witness :
    ChunksPartition ⟨2026, 1, 1⟩ ⟨2026, 9, 15⟩
      [(⟨2026, 1, 1⟩, ⟨2026, 3, 31⟩), (⟨2026, 4, 1⟩, ⟨2026, 6, 30⟩),
       (⟨2026, 7, 1⟩, ⟨2026, 9, 15⟩)] :=
  (C10_chunk_windows_partition ⟨2026, 1, 1⟩ ⟨2026, 9, 15⟩ 3 0 5
    (by exact ⟨by decide, by decide, by decide, by decide⟩)
    (by exact ⟨by decide, by decide, by decide, by decide⟩)
    (by decide)).1 _ (by decide)

end MetaDash
